import Mathlib

/-!
Verification of the CloudRental conversational real-estate bot.

Shallow embedding of the repository's pure logic:
* `gemini_client.py`  — intent resolution (`parse_intent`, `_parse_with_gemini`,
  `_regex_intent`),
* `repositories/properties_repo.py` — listing search (`search`, `get_by_id`,
  `get_calendar_id`),
* `repositories/bookings_repo.py` — booking store (`exists`, `create`, `cancel`),
* `main.py` — the `book_pick` / `browse` postback handlers, cursor parsing
  (`_extract_query_param`) and the reminder sweep (`send_reminders`).

External effects (HTTP, Google Sheets, Google Calendar, the system clock,
`uuid`) are passed in as explicit values or functions; spreadsheet tables are
lists of row records; a raised Python exception that escapes a function is an
`Except.error`.
-/

/-! ## Python string primitives (ASCII model)

`str.lower`, `str.strip`, `str.split()` and `' '.join` as used by the bot.
The model covers the ASCII range; the repository's commands and filter
keywords are ASCII.
-/

/-- Python `str.isspace` characters relevant to `split`/`strip`:
space, tab, newline, carriage return, vertical tab, form feed. -/
def pyIsSpace (c : Char) : Bool :=
  c.toNat = 32 || c.toNat = 9 || c.toNat = 10 || c.toNat = 13 ||
  c.toNat = 11 || c.toNat = 12

/-- ASCII model of Python `str.lower` on one character. -/
def pyLowerChar (c : Char) : Char :=
  if 65 ≤ c.toNat ∧ c.toNat ≤ 90 then Char.ofNat (c.toNat + 32) else c

/-- Python `str.lower` over a character list. -/
def pyLowerL (l : List Char) : List Char := l.map pyLowerChar

/-- Python `str.lower` on strings. -/
def pyLowerStr (s : String) : String := String.mk (pyLowerL s.toList)

/-- Python `str.strip()` (no argument): drop whitespace from both ends. -/
def pyStripL (l : List Char) : List Char :=
  ((l.dropWhile pyIsSpace).reverse.dropWhile pyIsSpace).reverse

/-- Python `str.strip()` on strings. -/
def pyStripStr (s : String) : String := String.mk (pyStripL s.toList)

/-- Worker for `str.split()` with no separator: split on whitespace runs,
dropping empty pieces.  `acc` is the word currently being read. -/
def wordsAux : List Char → List Char → List (List Char)
  | acc, [] => if acc = [] then [] else [acc]
  | acc, c :: cs =>
    if pyIsSpace c then
      if acc = [] then wordsAux [] cs else acc :: wordsAux [] cs
    else wordsAux (acc ++ [c]) cs

/-- Python `str.split()` (whitespace split, empties dropped). -/
def wordsL (l : List Char) : List (List Char) := wordsAux [] l

/-- Python `' '.join(words)`. -/
def joinSpaces : List (List Char) → List Char
  | [] => []
  | [w] => w
  | w :: ws => w ++ ' ' :: joinSpaces ws

/-- Substring test: Python `sub in s`. -/
def listContainsSub (sub : List Char) : List Char → Bool
  | [] => sub = []
  | c :: cs => sub.isPrefixOf (c :: cs) || listContainsSub sub cs

/-- Value of a run of ASCII digits. -/
def digitsToNat (l : List Char) : Nat :=
  l.foldl (fun a c => a * 10 + (c.toNat - 48)) 0

/-- ASCII model of Python `int(s)` for a plain decimal string: surrounding
whitespace allowed, optional sign, then one or more digits; anything else
raises, i.e. returns `none`. -/
def pyInt? (s : String) : Option Int :=
  let l := pyStripL s.toList
  match l with
  | '-' :: ds =>
    if ds ≠ [] ∧ ds.all Char.isDigit then some (-(digitsToNat ds : Int)) else none
  | '+' :: ds =>
    if ds ≠ [] ∧ ds.all Char.isDigit then some ((digitsToNat ds : Int)) else none
  | ds =>
    if ds ≠ [] ∧ ds.all Char.isDigit then some ((digitsToNat ds : Int)) else none

/-! ## Python JSON values

`json.loads` results and the dicts built by `_regex_intent` are modelled by
one inductive of Python/JSON values. -/

/-- A Python value as produced by `json.loads` or dict literals. -/
inductive JVal where
  | null
  | bool (b : Bool)
  | int (n : Int)
  | str (s : String)
  | arr (xs : List JVal)
  | obj (fields : List (String × JVal))

/-- Python truthiness (`if intent:`): `None`, `False`, `0`, `""`, `[]`, `{}`
are falsy. -/
def JVal.pytruthy : JVal → Bool
  | .null => false
  | .bool b => b
  | .int n => n ≠ 0
  | .str s => s ≠ ""
  | .arr xs => !xs.isEmpty
  | .obj fs => !fs.isEmpty

/-- Python dict assignment `d[k] = v`: overwrite in place, else append. -/
def setKey (fs : List (String × JVal)) (k : String) (v : JVal) :
    List (String × JVal) :=
  match fs with
  | [] => [(k, v)]
  | (k1, v1) :: rest =>
    if k1 = k then (k, v) :: rest else (k1, v1) :: setKey rest k v

/-- Python dict lookup `d[k]` / `d.get(k)` (keys unique in decoded JSON). -/
def lookupJ (fs : List (String × JVal)) (k : String) : Option JVal :=
  (fs.find? (fun kv => kv.1 = k)).map (fun kv => kv.2)

/-! ## gemini_client.py — GeminiNLU -/

/-- Intent dict `{"name": name, "filters": {...}}` as built by
`_regex_intent`. -/
def mkIntent (name : String) (fs : List (String × JVal)) : JVal :=
  .obj [("name", .str name), ("filters", .obj fs)]

/-- Model of `re.match(cmd + r"\s+(\S+)", q)` for a `q` that is already
whitespace-normalized (single plain spaces only, as `_regex_intent`
guarantees): `cmd`, one space, then the leading maximal non-space token. -/
def matchTok (cmd : List Char) (q : List Char) : Option (List Char) :=
  if (cmd ++ [' ']).isPrefixOf q then
    let tok := (q.drop (cmd.length + 1)).takeWhile (fun c => !pyIsSpace c)
    if tok = [] then none else some tok
  else none

/-- Generic `re.search`: try the pattern matcher at each start position,
leftmost first (also at the empty suffix). -/
def searchPos {α : Type} (p : List Char → Option α) : List Char → Option α
  | [] => p []
  | c :: cs =>
    match p (c :: cs) with
    | some r => some r
    | none => searchPos p cs

/-- ASCII model of the regex word class `\w` for `\b` boundaries. -/
def isWordChar (c : Char) : Bool := c.isAlphanum || c = '_'

/-- A `\b` boundary holds after a word if the next char is not a word char
(or the string ends). -/
def boundaryAfter : List Char → Bool
  | [] => true
  | c :: _ => !isWordChar c

/-- One alternative of `(br|bed|beds|bd|bedroom|bedrooms)\b`. -/
def unitAlt (u : String) (l : List Char) : Bool :=
  u.toList.isPrefixOf l && boundaryAfter (l.drop u.toList.length)

/-- The alternation `(br|bed|beds|bd|bedroom|bedrooms)\b`, alternatives tried
left to right as the `re` engine does. -/
def unitMatch (l : List Char) : Bool :=
  unitAlt "br" l || unitAlt "bed" l || unitAlt "beds" l || unitAlt "bd" l ||
  unitAlt "bedroom" l || unitAlt "bedrooms" l

/-- Pattern `(\d+)\s*(br|bed|beds|bd|bedroom|bedrooms)\b` at one position. -/
def bedroomsAt (l : List Char) : Option Int :=
  let ds := l.takeWhile Char.isDigit
  if ds = [] then none
  else
    let rest := (l.drop ds.length).dropWhile pyIsSpace
    if unitMatch rest then some ((digitsToNat ds : Int)) else none

/-- Pattern `under\s+(\d+[\d,\s]*)` at one position; the capture has its commas and
spaces removed before `int()`, as in the source. -/
def underAt (l : List Char) : Option Int :=
  if "under".toList.isPrefixOf l then
    let r := l.drop 5
    let sp := r.takeWhile pyIsSpace
    if sp = [] then none
    else
      let r2 := r.drop sp.length
      match r2 with
      | c :: _ =>
        if c.isDigit then
          let cap := r2.takeWhile (fun d => d.isDigit || d = ',' || pyIsSpace d)
          some ((digitsToNat (cap.filter (fun d => d ≠ ',' ∧ d ≠ ' ')) : Int))
        else none
      | [] => none
  else none

/-- Pattern `under\s+(\d+)\s*k\b` at one position; the value is multiplied by 1000. -/
def underKAt (l : List Char) : Option Int :=
  if "under".toList.isPrefixOf l then
    let r := l.drop 5
    let sp := r.takeWhile pyIsSpace
    if sp = [] then none
    else
      let r2 := r.drop sp.length
      let ds := r2.takeWhile Char.isDigit
      if ds = [] then none
      else
        match (r2.drop ds.length).dropWhile pyIsSpace with
        | 'k' :: rest =>
          if boundaryAfter rest then some ((digitsToNat ds : Int) * 1000) else none
        | _ => none
  else none

/-- Pattern `over\s+(\d+[\d,]*)` at one position; commas removed before `int()`. -/
def overAt (l : List Char) : Option Int :=
  if "over".toList.isPrefixOf l then
    let r := l.drop 4
    let sp := r.takeWhile pyIsSpace
    if sp = [] then none
    else
      let r2 := r.drop sp.length
      match r2 with
      | c :: _ =>
        if c.isDigit then
          let cap := r2.takeWhile (fun d => d.isDigit || d = ',')
          some ((digitsToNat (cap.filter (fun d => d ≠ ',')) : Int))
        else none
      | [] => none
  else none

/-- Pattern `in\s+([a-z\-\s]+)$` at one position: after `in` and whitespace, the rest
of the string must consist of lowercase letters, hyphens and whitespace; the
capture is then `strip()`ped. -/
def inAt (l : List Char) : Option String :=
  match l with
  | 'i' :: 'n' :: rest =>
    let sp := rest.takeWhile pyIsSpace
    if sp = [] then none
    else
      let r2 := rest.drop sp.length
      if r2 ≠ [] ∧ r2.all (fun c => (97 ≤ c.toNat && c.toNat ≤ 122) || c = '-' || pyIsSpace c) then
        some (String.mk (pyStripL r2))
      else none
  | _ => none

/-- The normalization at the head of `_regex_intent`:
`q = text.lower().strip()` then `q = ' '.join(q.split())`. -/
def normQ (l : List Char) : List Char :=
  joinSpaces (wordsL (pyStripL (pyLowerL l)))

/-- GeminiNLU._regex_intent — the deterministic rule-based intent parser,
on the normalized character list. -/
def regexIntentL (l : List Char) : JVal :=
  let q := normQ l
  if "browse".toList.isPrefixOf q then mkIntent "browse" []
  else if "my bookings".toList.isPrefixOf q then mkIntent "my_bookings" []
  else
    match matchTok "detail".toList q with
    | some tok => mkIntent "detail" [("property_id", .str (String.mk tok))]
    | none =>
      match matchTok "book".toList q with
      | some tok => mkIntent "book" [("property_id", .str (String.mk tok))]
      | none =>
        match matchTok "cancel".toList q with
        | some tok => mkIntent "cancel" [("booking_id", .str (String.mk tok))]
        | none =>
          let fs : List (String × JVal) := []
          let fs := match searchPos bedroomsAt q with
            | some n => setKey fs "bedrooms" (.int n) | none => fs
          let fs := match searchPos underAt q with
            | some n => setKey fs "price_max" (.int n) | none => fs
          let fs := match searchPos underKAt q with
            | some n => setKey fs "price_max" (.int n) | none => fs
          let fs := match searchPos overAt q with
            | some n => setKey fs "price_min" (.int n) | none => fs
          let fs := match searchPos inAt q with
            | some a => setKey fs "neighborhood" (.str a) | none => fs
          let fs := if listContainsSub "condo".toList q then
              setKey fs "property_type" (.str "condo") else fs
          let fs := if listContainsSub "retail".toList q then
              setKey fs "property_type" (.str "retail") else fs
          let fs := if listContainsSub "land".toList q then
              setKey fs "property_type" (.str "land") else fs
          if fs.isEmpty then mkIntent "fallback" []
          else mkIntent "search" fs

/-- GeminiNLU._regex_intent on strings. -/
def GeminiNLU.regex_intent (text : String) : JVal := regexIntentL text.toList

/-- The outcome of the one HTTP round trip to the Gemini endpoint:
either an exception was raised somewhere in the request (network error,
timeout, `resp.json()` failure) or a status code and decoded JSON body
came back. -/
inductive GeminiCall where
  | exn
  | resp (status : Nat) (data : JVal)

/-- The extraction `data["candidates"][0]["content"]["parts"][0]["text"]`;
any `KeyError` / `IndexError` / `TypeError` (caught in the source) is `none`.
`json.loads` also needs the final value to be a string. -/
def extractGeminiText (data : JVal) : Option String :=
  match data with
  | .obj fs =>
    match lookupJ fs "candidates" with
    | some (.arr (c0 :: _)) =>
      match c0 with
      | .obj cf =>
        match lookupJ cf "content" with
        | some (.obj gf) =>
          match lookupJ gf "parts" with
          | some (.arr (p0 :: _)) =>
            match p0 with
            | .obj pf =>
              match lookupJ pf "text" with
              | some (.str t) => some t
              | _ => none
            | _ => none
          | _ => none
        | _ => none
      | _ => none
    | _ => none
  | _ => none

/-- GeminiNLU._parse_with_gemini: `none` exactly on the paths where the
source returns `None` (exception, non-200, envelope extraction failure,
`json.loads` failure).  `jsonLoads` is the external `json.loads`, returning
`none` when it raises on malformed text. -/
def GeminiNLU.parse_with_gemini (jsonLoads : String → Option JVal)
    (call : GeminiCall) : Option JVal :=
  match call with
  | .exn => none
  | .resp status data =>
    if status ≠ 200 then none
    else
      match extractGeminiText data with
      | none => none
      | some t => jsonLoads t

/-- GeminiNLU.parse_intent: try the LLM; on a falsy result (`None` or a
falsy decoded value) fall back to `_regex_intent`. -/
def GeminiNLU.parse_intent (jsonLoads : String → Option JVal)
    (call : GeminiCall) (user_text : String) : JVal :=
  match GeminiNLU.parse_with_gemini jsonLoads call with
  | some intent =>
    if intent.pytruthy then intent else GeminiNLU.regex_intent user_text
  | none => GeminiNLU.regex_intent user_text

/-- The degraded-LLM cases named by the spec: the request raised, the status
was not 200, the response envelope was missing a required field, or the
returned text was not valid JSON. -/
def degradedCall (jsonLoads : String → Option JVal) (call : GeminiCall) : Prop :=
  call = .exn ∨
  ∃ status data, call = .resp status data ∧
    (status ≠ 200 ∨ extractGeminiText data = none ∨
     ∃ t, extractGeminiText data = some t ∧ jsonLoads t = none)

/-! ## repositories/properties_repo.py — PropertiesRepository

A listing row from `get_all_records` on the `properties` worksheet.  Cells
are sheet strings; `status` and `calendar_id` are `Option` because the
source reads them with `get` defaults (`"active"` / `None`) that only fire
when the column is absent. -/

/-- One row of the `properties` sheet. -/
structure PropRow where
  id : String
  title : String
  price : String
  bedrooms : String
  bathrooms : String
  neighborhood : String
  address : String
  type : String
  status : Option String
  calendar_id : Option String
deriving DecidableEq, Repr

/-- The search filter dict: each recognized key, absent or present.
Numeric filter values are the integers the intent resolver produces;
`bedrooms`/`bathrooms` are compared through `str()` so they are kept as
strings here. -/
structure SFilters where
  price_min : Option Int := none
  price_max : Option Int := none
  bedrooms : Option String := none
  bathrooms : Option String := none
  neighborhood : Option String := none
  area : Option String := none
  property_type : Option String := none
deriving DecidableEq, Repr

/-- Python `x or y` for an optional string `x`: `y` when `x` is `None` or
empty. -/
def orElseStr (x : Option String) (y : String) : String :=
  match x with
  | some s => if s = "" then y else s
  | none => y

/-- Source line `rows = [r for r in self._read_all() if str(r.get("status", "active")).lower() == "active"]`. -/
def activeRows (rows : List PropRow) : List PropRow :=
  rows.filter fun r => pyLowerStr (r.status.getD "active") = "active"

/-- Source line `area = (filters.get("neighborhood") or filters.get("area") or "").strip().lower()`. -/
def searchArea (f : SFilters) : String :=
  pyLowerStr (pyStripStr (orElseStr f.neighborhood (orElseStr f.area "")))

/-- Source line `ptype = (filters.get("property_type") or "").lower()`. -/
def searchPtype (f : SFilters) : String := pyLowerStr (orElseStr f.property_type "")

/-- The `type_map` of property-type synonyms, in source order. -/
def type_map : List (String × List String) :=
  [("retail", ["retail", "shop", "shop house", "shophouse", "commercial"]),
   ("condo", ["condo", "apartment", "คอนโด"]),
   ("land", ["land", "ที่ดิน"])]

/-- The `type_targets` computation: first synonym group containing `ptype`
(key prepended), else the raw `ptype`; empty when no type filter. -/
def typeTargets (ptype : String) : List String :=
  if ptype = "" then []
  else
    match type_map.find? (fun kv => ptype = kv.1 || kv.2.contains ptype) with
    | some kv => kv.1 :: kv.2
    | none => [ptype]

/-- The haystack `" ".join([neighborhood, address, title]).lower()` used for
the area substring match. -/
def areaHay (r : PropRow) : String :=
  pyLowerStr (r.neighborhood ++ " " ++ r.address ++ " " ++ r.title)

/-- Test `area in hay` for the area-only fallback pass. -/
def areaMatches (area : String) (r : PropRow) : Bool :=
  listContainsSub area.toList (areaHay r).toList

/-- The inner `ok(r)` predicate of `PropertiesRepository.search`: price
range, exact bed/bath match (skipped when the listing cell is blank), area
substring, property-type synonym match. -/
def rowOk (f : SFilters) (area : String) (targets : List String) (r : PropRow) : Bool :=
  let price := ((pyInt? (String.mk (r.price.toList.filter (fun c => c ≠ ',')))).getD 0)
  if f.price_min.any (fun m => price < m) then false
  else if f.price_max.any (fun m => price > m) then false
  else if f.bedrooms.any (fun b => pyStripStr r.bedrooms ≠ "" && r.bedrooms ≠ b) then false
  else if f.bathrooms.any (fun b => pyStripStr r.bathrooms ≠ "" && r.bathrooms ≠ b) then false
  else if area ≠ "" && !areaMatches area r then false
  else if !targets.isEmpty && !(targets.any fun t => listContainsSub t.toList (pyLowerStr r.type).toList) then false
  else true

/-- The full-filter pass of `search` (before graceful degradation). -/
def fullPass (rows : List PropRow) (f : SFilters) : List PropRow :=
  (activeRows rows).filter (rowOk f (searchArea f) (typeTargets (searchPtype f)))

/-- PropertiesRepository.search: full filter pass, then the relax-to-match
fallback — if an area was given and nothing matched, retry with only the
area substring filter over the active rows. -/
def PropertiesRepository.search (rows : List PropRow) (f : SFilters) : List PropRow :=
  let results := fullPass rows f
  if results.isEmpty && searchArea f ≠ "" then
    (activeRows rows).filter (areaMatches (searchArea f))
  else results

/-- PropertiesRepository.get_by_id: first row whose `id` matches. -/
def PropertiesRepository.get_by_id (rows : List PropRow) (pid : String) : Option PropRow :=
  rows.find? fun r => r.id = pid

/-- PropertiesRepository.get_calendar_id: the property's truthy
`calendar_id` cell, else the `DEFAULT_GOOGLE_CALENDAR_ID` environment value. -/
def PropertiesRepository.get_calendar_id (rows : List PropRow)
    (defaultCal : Option String) (pid : String) : Option String :=
  match PropertiesRepository.get_by_id rows pid with
  | some p =>
    match p.calendar_id with
    | some cid => if cid = "" then defaultCal else some cid
    | none => defaultCal
  | none => defaultCal

/-! ## repositories/bookings_repo.py — BookingsRepository -/

/-- One row of the `bookings` sheet.  `status` is `Option` because the
source reads it as `r.get("status", "requested")`. -/
structure BookingRow where
  booking_id : String
  user_id : String
  user_display_name : String
  property_id : String
  datetime : String
  status : Option String
  created_at : String
  notes : String
deriving DecidableEq, Repr

/-- The header row of a standard `bookings` worksheet, i.e. the keys of the
row dict `BookingsRepository.create` appends. -/
def bookingHeaders : List String :=
  ["booking_id", "user_id", "user_display_name", "property_id", "datetime",
   "status", "created_at", "notes"]

/-- BookingsRepository.exists: some row at the `(property_id, datetime)`
pair has (lowercased, default `requested`) status `requested` or
`confirmed`. -/
def BookingsRepository.existsBooking (rows : List BookingRow)
    (property_id dt_iso : String) : Bool :=
  rows.any fun r =>
    r.property_id = property_id && r.datetime = dt_iso &&
    (pyLowerStr (r.status.getD "requested") = "requested" ||
     pyLowerStr (r.status.getD "requested") = "confirmed")

/-- BookingsRepository.create: the appended row.  `booking_id` (a uuid
slice) and `created_at` (the clock) are environment inputs; display name
and notes default to `""` when `None`. -/
def BookingsRepository.create (bookingId createdAt : String)
    (user_id : String) (user_display_name : Option String)
    (property_id dt_iso : String) (notes : Option String) : BookingRow :=
  { booking_id := bookingId
    user_id := user_id
    user_display_name := user_display_name.getD ""
    property_id := property_id
    datetime := dt_iso
    status := some "requested"
    created_at := createdAt
    notes := notes.getD "" }

/-- The row scan of `BookingsRepository.cancel`: write `cancelled` into the
status cell of the first row whose `booking_id` matches and report `True`;
`False` when no row matches. -/
def cancelScan : List BookingRow → String → Bool × List BookingRow
  | [], _ => (false, [])
  | r :: rs, bid =>
    if r.booking_id = bid then (true, { r with status := some "cancelled" } :: rs)
    else
      let p := cancelScan rs bid
      (p.1, r :: p.2)

/-- BookingsRepository.cancel: returns `False` without touching the sheet
when the `booking_id` or `status` column is missing, else runs the row
scan.  The pair is (returned bool, resulting sheet rows). -/
def BookingsRepository.cancel (headers : List String) (rows : List BookingRow)
    (booking_id : String) : Bool × List BookingRow :=
  if headers.contains "booking_id" && headers.contains "status" then
    cancelScan rows booking_id
  else (false, rows)

/-! ## main.py — the `book_pick` postback branch -/

/-- The reply sent by the `book_pick` branch of `_handle_postback`. -/
inductive BookPickReply where
  | propertyNotFound
  | slotTakenSheets
  | slotTakenCalendar
  | confirmed (b : BookingRow)
deriving DecidableEq, Repr

/-- The calendar half of the availability check:
`calendar_id = properties_repo.get_calendar_id(pid)` followed by
`if calendar_id and calendar_repo.find_event(calendar_id, pid, dt)`.
`findEvent` is the external `CalendarRepository.find_event`; it has no
exception handler in the source, so a raised error (`Except.error`)
propagates.  `Except.ok true` means a truthy event id was found. -/
def calendarConflict (props : List PropRow) (defaultCal : Option String)
    (findEvent : String → String → String → Except Unit (Option String))
    (pid dt : String) : Except Unit Bool :=
  match PropertiesRepository.get_calendar_id props defaultCal pid with
  | none => .ok false
  | some cid =>
    if cid = "" then .ok false
    else
      match findEvent cid pid dt with
      | .error e => .error e
      | .ok ev => .ok (match ev with | some s => s ≠ "" | none => false)

/-- The `book_pick` branch of `_handle_postback` after `pid`/`dt`
extraction: look up the property, check the bookings sheet, check the
calendar, enrich the display name (best-effort, modelled by the
`profileName` input), create the booking, reply.  The result pairs the
reply with the resulting bookings sheet; a raised calendar-lookup error
escapes the handler as `Except.error`. -/
def handlePostbackBookPick (props : List PropRow) (bookings : List BookingRow)
    (defaultCal : Option String)
    (findEvent : String → String → String → Except Unit (Option String))
    (profileName : Option String) (bookingId createdAt : String)
    (user_id pid dt : String) : Except Unit (BookPickReply × List BookingRow) :=
  match PropertiesRepository.get_by_id props pid with
  | none => .ok (.propertyNotFound, bookings)
  | some _ =>
    if BookingsRepository.existsBooking bookings pid dt then
      .ok (.slotTakenSheets, bookings)
    else
      match calendarConflict props defaultCal findEvent pid dt with
      | .error e => .error e
      | .ok true => .ok (.slotTakenCalendar, bookings)
      | .ok false =>
        let row := BookingsRepository.create bookingId createdAt user_id
          profileName pid dt none
        .ok (.confirmed row, bookings ++ [row])

/-! ## main.py — pagination and cursor parsing -/

/-- Python `data.split("&")` (single-character separator, empties kept). -/
def splitAmp : List Char → List (List Char)
  | [] => [[]]
  | c :: cs =>
    match splitAmp cs with
    | [] => [[c]]
    | w :: ws => if c = '&' then [] :: w :: ws else (c :: w) :: ws

/-- Source `_extract_query_param(data, key)`: split on `&`, return the text
after the first `=` of the first part starting with `key=`. -/
def extract_query_param (data key : String) : Option String :=
  (splitAmp data.toList).findSome? fun p =>
    if (key.toList ++ ['=']).isPrefixOf p then
      some (String.mk (p.drop (key.length + 1)))
    else none

/-- Python `int(v)` on a decoded JSON value: ints pass through, bools are
0/1, numeric strings parse, everything else raises (`none`). -/
def pyIntJ : JVal → Option Int
  | .int n => some n
  | .bool b => some (if b then 1 else 0)
  | .str s => pyInt? s
  | _ => none

/-- The cursor computation of the `browse`/`search` text path:
`cursor = 0`, then `cursor = max(0, int(filters["cursor"]))` when the key
is present, any exception resetting it to 0. -/
def textCursor (cursorVal : Option JVal) : Nat :=
  match cursorVal with
  | none => 0
  | some v =>
    match pyIntJ v with
    | some n => (max 0 n).toNat
    | none => 0

/-- The cursor computation of the `browse` postback path:
`cursor_str = _extract_query_param(data, "cursor") or "0"`, then
`max(0, int(cursor_str))`, any exception resetting it to 0. -/
def postbackCursor (data : String) : Nat :=
  let cursor_str := orElseStr (extract_query_param data "cursor") "0"
  match pyInt? cursor_str with
  | some n => (max 0 n).toNat
  | none => 0

/-- The page slice `props[cursor:cursor + 9]`. -/
def browseSlice (props : List PropRow) (cursor : Nat) : List PropRow :=
  (props.drop cursor).take 9

/-- The continuation cursor carried by the appended "More results" bubble:
`cursor + 9` exactly when `cursor + 9 < len(props)`. -/
def browseNext (props : List PropRow) (cursor : Nat) : Option Nat :=
  if cursor + 9 < props.length then some (cursor + 9) else none

/-- The reply of a browse/search page. -/
inductive BrowseReply where
  | noResults
  | noMore
  | page (items : List PropRow) (next : Option Nat)
deriving DecidableEq, Repr

/-- The `browse`/`search` branch of `_handle_text`: parse the cursor, run
the search, reply "No properties found" on an empty result, else reply the
page slice plus the optional continuation. -/
def handleTextBrowse (rows : List PropRow) (f : SFilters)
    (cursorVal : Option JVal) : BrowseReply :=
  let cursor := textCursor cursorVal
  let props := PropertiesRepository.search rows f
  if props.isEmpty then .noResults
  else .page (browseSlice props cursor) (browseNext props cursor)

/-- The `browse` branch of `_handle_postback`: parse the cursor from the
postback data, search with empty filters, reply "No more results." on an
empty page, else the page plus the optional continuation. -/
def handlePostbackBrowse (data : String) (rows : List PropRow) : BrowseReply :=
  let cursor := postbackCursor data
  let props := PropertiesRepository.search rows {}
  let page := browseSlice props cursor
  if page.isEmpty then .noMore
  else .page page (browseNext props cursor)

/-! ## main.py — send_reminders -/

/-- The two-hour tolerance window `(2*3600 - 5*60) < delta < (2*3600 + 5*60)`. -/
def win2h (delta : Int) : Bool := 2 * 3600 - 5 * 60 < delta && delta < 2 * 3600 + 5 * 60

/-- The twenty-four-hour tolerance window. -/
def win24h (delta : Int) : Bool := 24 * 3600 - 5 * 60 < delta && delta < 24 * 3600 + 5 * 60

/-- The pushes one booking row contributes to a sweep: skip non-pending
statuses and unparseable datetimes, then push for each window containing
the delta.  `parseDt` is the external `datetime.fromisoformat` (epoch
seconds, `none` when it raises); `enabled` is `ENABLE_REMINDERS`. -/
def remindersFor (enabled : Bool) (parseDt : String → Option Int) (now : Int)
    (b : BookingRow) : List (BookingRow × String) :=
  let status := pyLowerStr (b.status.getD "requested")
  if status ≠ "requested" && status ≠ "confirmed" then []
  else
    match parseDt b.datetime with
    | none => []
    | some t =>
      let delta := t - now
      (if win2h delta && enabled then [(b, "2h")] else []) ++
      (if win24h delta && enabled then [(b, "24h")] else [])

/-- send_reminders: one sweep over the bookings sheet, returning the pushed
reminders in order as (booking, window) pairs. -/
def send_reminders (enabled : Bool) (parseDt : String → Option Int) (now : Int) :
    List BookingRow → List (BookingRow × String)
  | [] => []
  | b :: bs => remindersFor enabled parseDt now b ++ send_reminders enabled parseDt now bs

/-! ## Concrete fixtures used by witnesses and counterexamples -/

/-- A minimal active listing, id `p1`, no per-property calendar. -/
def propP1 : PropRow :=
  { id := "p1", title := "Condo A", price := "25,000", bedrooms := "2",
    bathrooms := "1", neighborhood := "thonglor", address := "123 soi 1",
    type := "condo", status := some "active", calendar_id := none }

/-- An inactive listing, id `p2`. -/
def propP2 : PropRow :=
  { id := "p2", title := "House B", price := "50000", bedrooms := "3",
    bathrooms := "2", neighborhood := "phuket", address := "", type := "house",
    status := some "inactive", calendar_id := none }

/-- A cancelled booking occupying the pair `(p1, 2025-01-02T10:00)`. -/
def bkCancelled : BookingRow :=
  { booking_id := "b0", user_id := "u0", user_display_name := "",
    property_id := "p1", datetime := "2025-01-02T10:00",
    status := some "cancelled", created_at := "t", notes := "" }

/-- A requested booking, datetime cell `D`. -/
def bkRequested : BookingRow :=
  { booking_id := "b1", user_id := "u1", user_display_name := "",
    property_id := "p1", datetime := "D", status := some "requested",
    created_at := "t", notes := "" }

/-- A bedrooms-plus-area filter set that over-specifies: no active listing
has five bedrooms. -/
def fil5 : SFilters := { bedrooms := some "5", neighborhood := some "thonglor" }

/-- A calendar lookup that always succeeds finding nothing. -/
def findNone : String → String → String → Except Unit (Option String) :=
  fun _ _ _ => .ok none

/-- A calendar lookup that always raises. -/
def findFails : String → String → String → Except Unit (Option String) :=
  fun _ _ _ => .error ()

/-- A `json.loads` that always raises. -/
def loadsFails : String → Option JVal := fun _ => none

/-- A datetime parser mapping the cell `D` to epoch second 7140
(two hours minus one minute after `now = 0`). -/
def parseDtFix : String → Option Int := fun s => if s = "D" then some 7140 else none

/-- The n-th listing of the 20-listing pagination fixture. -/
def mkPropRow (n : Nat) : PropRow :=
  { id := toString n, title := "L", price := "1", bedrooms := "", bathrooms := "",
    neighborhood := "", address := "", type := "", status := some "active",
    calendar_id := none }

/-- Twenty distinct active listings. -/
def props20 : List PropRow := (List.range 20).map mkPropRow

/-! ## Theorems -/

/-- C3: cancelling a booking whose row already has status `cancelled` is
reported as having taken effect — `BookingsRepository.cancel` checks only
that a row with the id exists, never its current status.  At this input the
store holds a single already-cancelled row; the code rewrites the status
cell (a no-op) and returns `True`, where the contract (and the handler's
own "Booking not found or already cancelled." reply mapping) requires a
negative result. -/
theorem cancel_already_cancelled_returns_true :
    pyLowerStr (bkCancelled.status.getD "requested") = "cancelled" ∧
    BookingsRepository.cancel bookingHeaders [bkCancelled] "b0" = (true, [bkCancelled]) :=
  ⟨rfl, rfl⟩

/-- C4: whenever the language-model call degrades (exception/timeout,
non-200 status, response envelope missing a required field, or
`json.loads` failure on the returned text), `parse_intent` returns exactly
the rule-based `_regex_intent` result; the model is total, so no error
reaches the caller. -/
theorem parse_intent_degrades_to_regex (jsonLoads : String → Option JVal)
    (call : GeminiCall) (user_text : String) (h : degradedCall jsonLoads call) :
    GeminiNLU.parse_intent jsonLoads call user_text = GeminiNLU.regex_intent user_text := by
  have hg : GeminiNLU.parse_with_gemini jsonLoads call = none := by
    rcases h with h | ⟨st, data, hc, hcase⟩
    · rw [h]; rfl
    · subst hc
      rcases hcase with hs | he | ⟨t, ht, hl⟩
      · simp [GeminiNLU.parse_with_gemini, hs]
      · simp only [GeminiNLU.parse_with_gemini]
        split
        · rfl
        · rw [he]
      · simp only [GeminiNLU.parse_with_gemini]
        split
        · rfl
        · rw [ht]; exact hl
  simp [GeminiNLU.parse_intent, hg]

/-- C4 witness: a raised request at the text "hello". -/
theorem parse_intent_degrades_to_regex_witness :
    degradedCall loadsFails GeminiCall.exn ∧
    GeminiNLU.parse_intent loadsFails GeminiCall.exn "hello" = GeminiNLU.regex_intent "hello" :=
  ⟨Or.inl rfl, parse_intent_degrades_to_regex loadsFails GeminiCall.exn "hello" (Or.inl rfl)⟩

/-- C5: when an area term is present and the full filter pass over the
active listings is empty, `search` returns the area-only pass over the
active listings, and is empty exactly when that pass is empty. -/
theorem search_area_fallback (rows : List PropRow) (f : SFilters)
    (harea : searchArea f ≠ "") (hfull : fullPass rows f = []) :
    PropertiesRepository.search rows f =
      (activeRows rows).filter (areaMatches (searchArea f)) ∧
    (PropertiesRepository.search rows f = [] ↔
      (activeRows rows).filter (areaMatches (searchArea f)) = []) := by
  have h1 : PropertiesRepository.search rows f =
      (activeRows rows).filter (areaMatches (searchArea f)) := by
    unfold PropertiesRepository.search
    rw [hfull]
    simp [harea]
  exact ⟨h1, by rw [h1]⟩

/-- C5 witness: a bedrooms-plus-area query with no full match falls back to
the two Thonglor listings that match the area alone. -/
theorem search_area_fallback_witness :
    searchArea fil5 ≠ "" ∧ fullPass [propP1, propP2] fil5 = [] ∧
    PropertiesRepository.search [propP1, propP2] fil5 =
      (activeRows [propP1, propP2]).filter (areaMatches (searchArea fil5)) ∧
    PropertiesRepository.search [propP1, propP2] fil5 = [propP1] := by
  refine ⟨by decide, by decide, (search_area_fallback _ _ (by decide) (by decide)).1, by decide⟩

/-- C9: every listing returned by `search` — through the full pass or the
area-only fallback pass — has (lowercased, default `active`) status
`active`. -/
theorem search_returns_only_active (rows : List PropRow) (f : SFilters) (r : PropRow)
    (hmem : r ∈ PropertiesRepository.search rows f) :
    pyLowerStr (r.status.getD "active") = "active" := by
  have hact : r ∈ activeRows rows := by
    simp only [PropertiesRepository.search] at hmem
    split at hmem
    · exact List.mem_of_mem_filter hmem
    · simp only [fullPass] at hmem
      exact List.mem_of_mem_filter hmem
  simp only [activeRows, List.mem_filter] at hact
  exact of_decide_eq_true hact.2

/-- C9 witness: the single active listing returned by an unfiltered search. -/
theorem search_returns_only_active_witness :
    propP1 ∈ PropertiesRepository.search [propP1, propP2] {} ∧
    pyLowerStr (propP1.status.getD "active") = "active" :=
  ⟨by decide, search_returns_only_active [propP1, propP2] {} propP1 (by decide)⟩

/-- C10: cursor parsing at both entry points is total and clamps: a missing,
non-numeric, or negative cursor value becomes 0, and any two postback data
strings parsing to the same cursor drive the browse handler identically. -/
theorem cursor_parsing_total (data d2 : String) (v : JVal) (n : Int) (s : String)
    (props : List PropRow) :
    (textCursor none = 0) ∧
    (pyIntJ v = none → textCursor (some v) = 0) ∧
    (pyIntJ v = some n → n ≤ 0 → textCursor (some v) = 0) ∧
    (pyIntJ v = some n → 0 ≤ n → textCursor (some v) = n.toNat) ∧
    (extract_query_param data "cursor" = none → postbackCursor data = 0) ∧
    (extract_query_param data "cursor" = some s → pyInt? s = none →
      postbackCursor data = 0) ∧
    (extract_query_param data "cursor" = some s → pyInt? s = some n → n ≤ 0 →
      postbackCursor data = 0) ∧
    (postbackCursor data = postbackCursor d2 →
      handlePostbackBrowse data props = handlePostbackBrowse d2 props) := by
  refine ⟨rfl, ?_, ?_, ?_, ?_, ?_, ?_, ?_⟩
  · intro h; simp [textCursor, h]
  · intro h hle
    simp only [textCursor, h]
    rw [max_eq_left hle]
    rfl
  · intro h hge
    simp only [textCursor, h]
    rw [max_eq_right hge]
  · intro h
    simp only [postbackCursor, h, orElseStr]
    rfl
  · intro h hnone
    by_cases hs : s = ""
    · subst hs
      simp only [postbackCursor, h, orElseStr, if_pos rfl]
      rfl
    · simp only [postbackCursor, h, orElseStr, if_neg hs, hnone]
  · intro h hsome hle
    have hs : s ≠ "" := by
      intro hs; subst hs
      simp [pyInt?, pyStripL] at hsome
    simp only [postbackCursor, h, orElseStr, if_neg hs, hsome]
    rw [max_eq_left hle]
    rfl
  · intro h
    simp only [handlePostbackBrowse, h]

/-- C8: a browse page is exactly the slice `props[cursor:cursor+9]` in
store order — its entries coincide index-by-index with the store — and the
continuation carries `cursor + 9` exactly when more listings remain; in
particular on 20 listings, cursor 0 yields 9 items plus continuation 9,
and cursor 18 yields 2 items with no continuation. -/
theorem browse_pagination (props : List PropRow) (c : Nat) :
    ((browseSlice props c).length = min 9 (props.length - c)) ∧
    (∀ i : Nat, (browseSlice props c)[i]? = if i < 9 then props[c + i]? else none) ∧
    (browseNext props c = some (c + 9) ↔ c + 9 < props.length) ∧
    (props.length = 20 →
      (browseSlice props 0).length = 9 ∧ browseNext props 0 = some 9 ∧
      (browseSlice props 18).length = 2 ∧ browseNext props 18 = none) := by
  refine ⟨?_, ?_, ?_, ?_⟩
  · simp [browseSlice]
  · intro i
    by_cases hi : i < 9
    · rw [if_pos hi]
      unfold browseSlice
      rw [List.getElem?_take_of_lt hi, List.getElem?_drop]
    · rw [if_neg hi]
      apply List.getElem?_eq_none
      calc (browseSlice props c).length ≤ 9 := by simp [browseSlice]
        _ ≤ i := Nat.le_of_not_lt hi
  · unfold browseNext
    split
    · rename_i h; simpa using h
    · rename_i h; simp; omega
  · intro h20
    refine ⟨?_, ?_, ?_, ?_⟩
    · simp [browseSlice, h20]
    · simp [browseNext, h20]
    · simp [browseSlice, h20]
    · simp [browseNext, h20]

/-- C8 witness: the 20-listing fixture at cursors 0 and 18. -/
theorem browse_pagination_witness :
    (browseSlice props20 0).length = 9 ∧ browseNext props20 0 = some 9 ∧
    (browseSlice props20 18).length = 2 ∧ browseNext props20 18 = none :=
  (browse_pagination props20 0).2.2.2 (by decide)

/-- C1: in the `book_pick` handler, a non-cancelled booking at the same
`(property_id, datetime)` pair makes `exists` true and the handler replies
"slot taken" without touching the store; when every booking at the pair is
cancelled (or none exists), the `exists` check passes and — the calendar
check finding no conflict — a fresh row with status `requested` is
appended. -/
theorem book_pick_conflict_check (props : List PropRow) (bookings : List BookingRow)
    (defaultCal : Option String)
    (findEvent : String → String → String → Except Unit (Option String))
    (profileName : Option String) (bookingId createdAt user_id pid dt : String)
    (p : PropRow) (hp : PropertiesRepository.get_by_id props pid = some p) :
    ((∃ r ∈ bookings, r.property_id = pid ∧ r.datetime = dt ∧
        (pyLowerStr (r.status.getD "requested") = "requested" ∨
         pyLowerStr (r.status.getD "requested") = "confirmed")) →
      handlePostbackBookPick props bookings defaultCal findEvent profileName
        bookingId createdAt user_id pid dt = .ok (.slotTakenSheets, bookings)) ∧
    ((∀ r ∈ bookings, r.property_id = pid → r.datetime = dt →
        pyLowerStr (r.status.getD "requested") = "cancelled") →
      BookingsRepository.existsBooking bookings pid dt = false ∧
      (calendarConflict props defaultCal findEvent pid dt = .ok false →
        handlePostbackBookPick props bookings defaultCal findEvent profileName
          bookingId createdAt user_id pid dt =
          .ok (.confirmed (BookingsRepository.create bookingId createdAt user_id
              profileName pid dt none),
            bookings ++ [BookingsRepository.create bookingId createdAt user_id
              profileName pid dt none]) ∧
        (BookingsRepository.create bookingId createdAt user_id profileName pid dt
          none).status = some "requested")) := by
  constructor
  · rintro ⟨r, hr, h1, h2, h3⟩
    have hex : BookingsRepository.existsBooking bookings pid dt = true := by
      unfold BookingsRepository.existsBooking
      rw [List.any_eq_true]
      refine ⟨r, hr, ?_⟩
      rcases h3 with h3 | h3 <;> simp [h1, h2, h3]
    simp only [handlePostbackBookPick, hp]
    simp [hex]
  · intro hall
    have hex : BookingsRepository.existsBooking bookings pid dt = false := by
      unfold BookingsRepository.existsBooking
      rw [List.any_eq_false]
      intro r hr
      by_cases h1 : r.property_id = pid
      · by_cases h2 : r.datetime = dt
        · have h3 := hall r hr h1 h2
          simp [h1, h2, h3]
        · simp [h2]
      · simp [h1]
    refine ⟨hex, fun hcal => ⟨?_, rfl⟩⟩
    simp only [handlePostbackBookPick, hp]
    simp [hex, hcal]

/-- C1 witness: a store holding only a cancelled booking for the pair lets
the handler create a fresh `requested` booking. -/
theorem book_pick_conflict_check_witness :
    BookingsRepository.existsBooking [bkCancelled] "p1" "2025-01-02T10:00" = false ∧
    handlePostbackBookPick [propP1] [bkCancelled] none findNone none "bk1" "t1"
        "u1" "p1" "2025-01-02T10:00" =
      .ok (.confirmed (BookingsRepository.create "bk1" "t1" "u1" none "p1"
          "2025-01-02T10:00" none),
        [bkCancelled] ++ [BookingsRepository.create "bk1" "t1" "u1" none "p1"
          "2025-01-02T10:00" none]) := by
  have h := (book_pick_conflict_check [propP1] [bkCancelled] none findNone none
    "bk1" "t1" "u1" "p1" "2025-01-02T10:00" propP1 (by decide)).2 (by decide)
  exact ⟨h.1, (h.2 rfl).1⟩

/-- C2 counterexample: with an empty booking store (the store check passes)
and a configured calendar, a raised calendar `find_event` lookup makes the
`book_pick` handler itself raise — the claim that the handler proceeds to
create the booking is false at this input; no booking is appended. -/
theorem calendar_lookup_failure_counterexample :
    BookingsRepository.existsBooking [] "p1" "2025-01-02T10:00" = false ∧
    PropertiesRepository.get_calendar_id [propP1] (some "cal1") "p1" = some "cal1" ∧
    handlePostbackBookPick [propP1] [] (some "cal1") findFails none "bk1" "t1"
      "u1" "p1" "2025-01-02T10:00" = .error () :=
  ⟨rfl, rfl, rfl⟩

/-- C2 amended: in the `book_pick` flow a calendar find-event failure is
fatal, not tolerated: when the booking-store check passes but the lookup
raises, the error propagates out of the handler and no reply or booking is
produced. -/
theorem calendar_lookup_failure_propagates (props : List PropRow)
    (bookings : List BookingRow) (defaultCal : Option String)
    (findEvent : String → String → String → Except Unit (Option String))
    (profileName : Option String) (bookingId createdAt user_id pid dt : String)
    (p : PropRow) (cid : String)
    (hp : PropertiesRepository.get_by_id props pid = some p)
    (hex : BookingsRepository.existsBooking bookings pid dt = false)
    (hcid : PropertiesRepository.get_calendar_id props defaultCal pid = some cid)
    (hne : cid ≠ "")
    (hfail : findEvent cid pid dt = .error ()) :
    handlePostbackBookPick props bookings defaultCal findEvent profileName
      bookingId createdAt user_id pid dt = .error () ∧
    ∀ out, handlePostbackBookPick props bookings defaultCal findEvent profileName
      bookingId createdAt user_id pid dt ≠ .ok out := by
  have hcal : calendarConflict props defaultCal findEvent pid dt = .error () := by
    simp only [calendarConflict, hcid]
    rw [if_neg hne, hfail]
  have h : handlePostbackBookPick props bookings defaultCal findEvent profileName
      bookingId createdAt user_id pid dt = .error () := by
    simp only [handlePostbackBookPick, hp]
    simp [hex, hcal]
  exact ⟨h, fun out hout => by rw [h] at hout; exact Except.noConfusion hout⟩

/-- C2 amended witness: the concrete failing lookup with default calendar
`cal1`. -/
theorem calendar_lookup_failure_propagates_witness :
    handlePostbackBookPick [propP1] [] (some "cal1") findFails none "bk1" "t1"
      "u1" "p1" "2025-01-02T10:00" = .error () :=
  (calendar_lookup_failure_propagates [propP1] [] (some "cal1") findFails none
    "bk1" "t1" "u1" "p1" "2025-01-02T10:00" propP1 "cal1" (by decide) (by decide)
    (by decide) (by decide) rfl).1

/-- Any pair emitted for a row carries that row as its first component. -/
theorem fst_of_mem_remindersFor {e : Bool} {p : String → Option Int} {now : Int}
    {b x : BookingRow} {w : String} (h : (x, w) ∈ remindersFor e p now b) : x = b := by
  simp only [remindersFor] at h
  split at h
  · simp at h
  · split at h
    · simp at h
    · rcases List.mem_append.1 h with h1 | h1 <;>
      · split at h1
        · rw [List.mem_singleton] at h1
          exact congrArg Prod.fst h1
        · simp at h1

/-- A pair in the sweep output comes from some row of the sheet. -/
theorem mem_send_reminders {e : Bool} {p : String → Option Int} {now : Int}
    {x : BookingRow} {w : String} :
    ∀ {rows : List BookingRow}, (x, w) ∈ send_reminders e p now rows →
      ∃ r ∈ rows, (x, w) ∈ remindersFor e p now r := by
  intro rows h
  induction rows with
  | nil => simp [send_reminders] at h
  | cons r rs ih =>
    rcases List.mem_append.1 h with h1 | h1
    · exact ⟨r, by simp, h1⟩
    · rcases ih h1 with ⟨r2, hr2, hm⟩
      exact ⟨r2, by simp [hr2], hm⟩

/-- A cancelled row contributes nothing to a sweep. -/
theorem remindersFor_cancelled {e : Bool} {p : String → Option Int} {now : Int}
    {b : BookingRow} (h : pyLowerStr (b.status.getD "requested") = "cancelled") :
    remindersFor e p now b = [] := by
  unfold remindersFor
  rw [if_pos]
  rw [h]
  decide

/-- A pending row with its delta in the two-hour window emits exactly the
one 2h push. -/
theorem remindersFor_win2h {p : String → Option Int} {now t : Int} {b : BookingRow}
    (hst : pyLowerStr (b.status.getD "requested") = "requested" ∨
      pyLowerStr (b.status.getD "requested") = "confirmed")
    (hdt : p b.datetime = some t) (hwin : win2h (t - now) = true) :
    remindersFor true p now b = [(b, "2h")] := by
  have hwin24 : win24h (t - now) = false := by
    have hw := hwin
    simp only [win2h, Bool.and_eq_true, decide_eq_true_eq] at hw
    simp only [win24h, Bool.and_eq_false_iff, decide_eq_false_iff_not]
    left
    omega
  rcases hst with h | h <;> simp [remindersFor, hdt, h, hwin, hwin24]

/-- A pending row with its delta in the twenty-four-hour window emits
exactly the one 24h push. -/
theorem remindersFor_win24h {p : String → Option Int} {now t : Int} {b : BookingRow}
    (hst : pyLowerStr (b.status.getD "requested") = "requested" ∨
      pyLowerStr (b.status.getD "requested") = "confirmed")
    (hdt : p b.datetime = some t) (hwin : win24h (t - now) = true) :
    remindersFor true p now b = [(b, "24h")] := by
  have hwin2 : win2h (t - now) = false := by
    have hw := hwin
    simp only [win24h, Bool.and_eq_true, decide_eq_true_eq] at hw
    simp only [win2h, Bool.and_eq_false_iff, decide_eq_false_iff_not]
    right
    omega
  rcases hst with h | h <;> simp [remindersFor, hdt, h, hwin, hwin2]

/-- When a booking occurs exactly once on the sheet and its own sweep
contribution is the single pair `(b, w)`, the whole sweep emits that pair
exactly once. -/
theorem count_send_reminders_single {parseDt : String → Option Int} {now : Int}
    {b : BookingRow} {w : String}
    (hone : remindersFor true parseDt now b = [(b, w)]) :
    ∀ {rows : List BookingRow}, rows.count b = 1 →
      (send_reminders true parseDt now rows).count (b, w) = 1 := by
  intro rows
  induction rows with
  | nil => intro h; simp at h
  | cons r rs ih =>
    intro hcount
    simp only [send_reminders]
    rw [List.count_append]
    by_cases hrb : r = b
    · subst hrb
      have h0 : rs.count r = 0 := by
        rw [List.count_cons] at hcount
        simp only [beq_self_eq_true, if_true] at hcount
        omega
      have hnot : (r, w) ∉ send_reminders true parseDt now rs := by
        intro hmem
        rcases mem_send_reminders hmem with ⟨r2, hr2, hm⟩
        have hx := fst_of_mem_remindersFor hm
        subst hx
        exact absurd hr2 (List.count_eq_zero.1 h0)
      rw [hone, List.count_eq_zero.2 hnot]
      simp
    · have hf : (r == b) = false := by
        simp only [beq_eq_false_iff_ne, ne_eq]
        exact hrb
      have h1 : rs.count b = 1 := by
        rw [List.count_cons, hf] at hcount
        simpa using hcount
      have hnotr : (b, w) ∉ remindersFor true parseDt now r := by
        intro hm
        exact hrb (fst_of_mem_remindersFor hm).symm
      rw [List.count_eq_zero.2 hnotr, ih h1]

/-- C6: on one sweep, a booking appearing once on the sheet with status
`requested` or `confirmed` whose delta lies in the two-hour tolerance
window receives exactly one 2h push (likewise one 24h push for the
twenty-four-hour window), and a cancelled booking is never pushed. -/
theorem reminder_sweep_per_booking (parseDt : String → Option Int) (now : Int)
    (rows : List BookingRow) (b : BookingRow) :
    (∀ t : Int, rows.count b = 1 →
      (pyLowerStr (b.status.getD "requested") = "requested" ∨
       pyLowerStr (b.status.getD "requested") = "confirmed") →
      parseDt b.datetime = some t → win2h (t - now) = true →
      (send_reminders true parseDt now rows).count (b, "2h") = 1) ∧
    (∀ t : Int, rows.count b = 1 →
      (pyLowerStr (b.status.getD "requested") = "requested" ∨
       pyLowerStr (b.status.getD "requested") = "confirmed") →
      parseDt b.datetime = some t → win24h (t - now) = true →
      (send_reminders true parseDt now rows).count (b, "24h") = 1) ∧
    (pyLowerStr (b.status.getD "requested") = "cancelled" →
      ∀ w, (b, w) ∉ send_reminders true parseDt now rows) := by
  refine ⟨?_, ?_, ?_⟩
  · intro t hcount hst hdt hwin
    exact count_send_reminders_single (remindersFor_win2h hst hdt hwin) hcount
  · intro t hcount hst hdt hwin
    exact count_send_reminders_single (remindersFor_win24h hst hdt hwin) hcount
  · intro hcanc w hmem
    rcases mem_send_reminders hmem with ⟨r, hr, hm⟩
    have hx := fst_of_mem_remindersFor hm
    subst hx
    rw [remindersFor_cancelled hcanc] at hm
    simp at hm

/-- C6 witness: one requested booking at delta two hours minus one minute
receives exactly one 2h reminder on the sweep. -/
theorem reminder_sweep_per_booking_witness :
    win2h (7140 - 0) = true ∧
    (send_reminders true parseDtFix 0 [bkRequested]).count (bkRequested, "2h") = 1 :=
  ⟨by decide,
   (reminder_sweep_per_booking parseDtFix 0 [bkRequested] bkRequested).1 7140
     (by decide) (Or.inl (by decide)) rfl (by decide)⟩

/-! ## Lowercasing and normalization lemmas for the rule-based parser -/

/-- Lowercasing never turns a character into or out of whitespace. -/
theorem pyIsSpace_pyLowerChar (c : Char) : pyIsSpace (pyLowerChar c) = pyIsSpace c := by
  unfold pyLowerChar
  split
  · rename_i h
    have hval : Nat.isValidChar (c.toNat + 32) := Or.inl (by omega)
    have hv : (Char.ofNat (c.toNat + 32)).toNat = c.toNat + 32 := by
      unfold Char.ofNat
      rw [dif_pos hval]
      rfl
    rw [Bool.eq_iff_iff]
    simp only [pyIsSpace, hv, Bool.or_eq_true, decide_eq_true_eq]
    omega
  · rfl

/-- A whitespace-free token stays whitespace-free under lowercasing. -/
theorem pyLowerL_nonspace {tok : List Char} (h : ∀ c ∈ tok, pyIsSpace c = false) :
    ∀ c ∈ pyLowerL tok, pyIsSpace c = false := by
  intro c hc
  rcases List.mem_map.1 hc with ⟨d, hd, rfl⟩
  rw [pyIsSpace_pyLowerChar]
  exact h d hd

/-- Python `split()` of a whitespace-free word is the one word (or nothing). -/
theorem wordsAux_nonspace (l : List Char) (hl : ∀ c ∈ l, pyIsSpace c = false) :
    ∀ acc : List Char, wordsAux acc l = if acc ++ l = [] then [] else [acc ++ l] := by
  induction l with
  | nil => intro acc; simp [wordsAux]
  | cons c cs ih =>
    intro acc
    have hc : pyIsSpace c = false := hl c (by simp)
    rw [wordsAux, hc]
    simp only [Bool.false_eq_true, if_false]
    rw [ih (fun d hd => hl d (by simp [hd]))]
    simp

/-- Python `split()` accumulates straight through a whitespace-free chunk. -/
theorem wordsAux_through (w : List Char) (hw : ∀ c ∈ w, pyIsSpace c = false) :
    ∀ (acc rest : List Char), wordsAux acc (w ++ rest) = wordsAux (acc ++ w) rest := by
  induction w with
  | nil => intro acc rest; simp
  | cons c cs ih =>
    intro acc rest
    have hc : pyIsSpace c = false := hw c (by simp)
    rw [List.cons_append, wordsAux, hc]
    simp only [Bool.false_eq_true, if_false]
    rw [ih (fun d hd => hw d (by simp [hd]))]
    simp

/-- Python `strip()` is the identity when both ends are non-whitespace. -/
theorem pyStripL_sandwich (a : Char) (m : List Char) (b : Char)
    (ha : pyIsSpace a = false) (hb : pyIsSpace b = false) :
    pyStripL (a :: (m ++ [b])) = a :: (m ++ [b]) := by
  unfold pyStripL
  rw [List.dropWhile_cons, ha]
  simp only [Bool.false_eq_true, if_false]
  have h2 : (a :: (m ++ [b])).reverse = b :: (m.reverse ++ [a]) := by simp
  rw [h2, List.dropWhile_cons, hb]
  simp

/-- The `_regex_intent` normalization of `cmd<space>token` (command already
lowercase and whitespace-free, token nonempty and whitespace-free) lowercases
the token and leaves the shape intact. -/
theorem normQ_cmd (cmd tok : List Char)
    (hcmdne : cmd ≠ [])
    (hcmd : ∀ c ∈ cmd, pyIsSpace c = false ∧ pyLowerChar c = c)
    (htokne : tok ≠ [])
    (htok : ∀ c ∈ tok, pyIsSpace c = false) :
    normQ (cmd ++ ' ' :: tok) = cmd ++ ' ' :: pyLowerL tok := by
  have hmapcmd : cmd.map pyLowerChar = cmd := by
    have h := List.map_congr_left (l := cmd) (f := pyLowerChar) (g := id)
      (fun c hc => (hcmd c hc).2)
    simpa using h
  have hlow : pyLowerL (cmd ++ ' ' :: tok) = cmd ++ ' ' :: pyLowerL tok := by
    unfold pyLowerL
    rw [List.map_append, List.map_cons, hmapcmd]
    rfl
  have hltne : pyLowerL tok ≠ [] := by
    unfold pyLowerL
    simpa using htokne
  have hlt : ∀ c ∈ pyLowerL tok, pyIsSpace c = false := pyLowerL_nonspace htok
  obtain ⟨a, cmd2, rfl⟩ : ∃ a cmd2, cmd = a :: cmd2 := by
    cases cmd with
    | nil => exact absurd rfl hcmdne
    | cons a cmd2 => exact ⟨a, cmd2, rfl⟩
  obtain ⟨ltI, b, hlteq⟩ : ∃ L b, pyLowerL tok = L ++ [b] := by
    rcases List.eq_nil_or_concat (pyLowerL tok) with h | ⟨L, b, h⟩
    · exact absurd h hltne
    · exact ⟨L, b, by simpa [List.concat_eq_append] using h⟩
  have hstrip : pyStripL ((a :: cmd2) ++ ' ' :: pyLowerL tok) =
      (a :: cmd2) ++ ' ' :: pyLowerL tok := by
    have hshape : (a :: cmd2) ++ ' ' :: pyLowerL tok =
        a :: ((cmd2 ++ ' ' :: ltI) ++ [b]) := by
      rw [hlteq]
      simp
    rw [hshape]
    rw [pyStripL_sandwich a (cmd2 ++ ' ' :: ltI) b (hcmd a (by simp)).1
      (hlt b (by rw [hlteq]; simp))]
  have hwords : wordsL ((a :: cmd2) ++ ' ' :: pyLowerL tok) =
      [a :: cmd2, pyLowerL tok] := by
    unfold wordsL
    rw [wordsAux_through (a :: cmd2) (fun c hc => (hcmd c hc).1) [] (' ' :: pyLowerL tok)]
    rw [wordsAux]
    simp only [List.nil_append]
    rw [show pyIsSpace ' ' = true from rfl]
    simp only [if_true]
    rw [if_neg (by simp : ¬(a :: cmd2 = []))]
    rw [wordsAux_nonspace (pyLowerL tok) hlt []]
    rw [if_neg (by simpa using hltne)]
    simp
  unfold normQ
  rw [hlow, hstrip, hwords]
  rfl

/-- A prefix test fails on differing head characters. -/
theorem isPrefixOf_cons_ne {a b : Char} (h : (a == b) = false) (as bs : List Char) :
    List.isPrefixOf (a :: as) (b :: bs) = false := by
  rw [List.isPrefixOf_cons₂, h, Bool.false_and]

/-- A prefix test fails on differing second characters. -/
theorem isPrefixOf_cons2_ne {a b c : Char} (h : (b == c) = false) (as bs : List Char) :
    List.isPrefixOf (a :: b :: as) (a :: c :: bs) = false := by
  rw [List.isPrefixOf_cons₂, List.isPrefixOf_cons₂, h, Bool.false_and, Bool.and_false]

/-- Matching `cmd` then whitespace then a captured token, on `cmd<space>token`,
succeeds and captures the token. -/
theorem matchTok_pos (cmd tok : List Char) (htokne : tok ≠ [])
    (htok : ∀ c ∈ tok, pyIsSpace c = false) :
    matchTok cmd (cmd ++ ' ' :: tok) = some tok := by
  unfold matchTok
  have hpre : ((cmd ++ [' ']).isPrefixOf (cmd ++ ' ' :: tok)) = true := by
    rw [List.isPrefixOf_iff_prefix]
    exact ⟨tok, by simp⟩
  rw [hpre]
  simp only [if_true]
  have hdrop : (cmd ++ ' ' :: tok).drop (cmd.length + 1) = tok := by
    rw [show cmd ++ ' ' :: tok = (cmd ++ [' ']) ++ tok by simp]
    exact List.drop_left' (by simp)
  rw [hdrop]
  have htake : tok.takeWhile (fun c => !pyIsSpace c) = tok := by
    rw [List.takeWhile_eq_self_iff]
    intro c hc
    simp [htok c hc]
  rw [htake, if_neg htokne]

/-- The `detail` command branch of `_regex_intent`. -/
theorem regexIntentL_detail (tok : List Char) (htokne : tok ≠ [])
    (htok : ∀ c ∈ tok, pyIsSpace c = false) :
    regexIntentL ("detail".toList ++ ' ' :: tok) =
      mkIntent "detail" [("property_id", .str (String.mk (pyLowerL tok)))] := by
  simp only [regexIntentL]
  rw [normQ_cmd "detail".toList tok (by decide) (by decide) htokne htok]
  have hltne : pyLowerL tok ≠ [] := by unfold pyLowerL; simpa using htokne
  have hlt : ∀ c ∈ pyLowerL tok, pyIsSpace c = false := pyLowerL_nonspace htok
  rw [show ("browse".toList.isPrefixOf ("detail".toList ++ ' ' :: pyLowerL tok)) = false from
    isPrefixOf_cons_ne (by decide) _ _]
  rw [show ("my bookings".toList.isPrefixOf ("detail".toList ++ ' ' :: pyLowerL tok)) = false from
    isPrefixOf_cons_ne (by decide) _ _]
  rw [matchTok_pos "detail".toList (pyLowerL tok) hltne hlt]
  simp

/-- The `book` command branch of `_regex_intent`. -/
theorem regexIntentL_book (tok : List Char) (htokne : tok ≠ [])
    (htok : ∀ c ∈ tok, pyIsSpace c = false) :
    regexIntentL ("book".toList ++ ' ' :: tok) =
      mkIntent "book" [("property_id", .str (String.mk (pyLowerL tok)))] := by
  simp only [regexIntentL]
  rw [normQ_cmd "book".toList tok (by decide) (by decide) htokne htok]
  have hltne : pyLowerL tok ≠ [] := by unfold pyLowerL; simpa using htokne
  have hlt : ∀ c ∈ pyLowerL tok, pyIsSpace c = false := pyLowerL_nonspace htok
  rw [show ("browse".toList.isPrefixOf ("book".toList ++ ' ' :: pyLowerL tok)) = false from
    isPrefixOf_cons2_ne (by decide) _ _]
  rw [show ("my bookings".toList.isPrefixOf ("book".toList ++ ' ' :: pyLowerL tok)) = false from
    isPrefixOf_cons_ne (by decide) _ _]
  rw [show (matchTok "detail".toList ("book".toList ++ ' ' :: pyLowerL tok)) = none from by
    unfold matchTok
    rw [show (("detail".toList ++ [' ']).isPrefixOf ("book".toList ++ ' ' :: pyLowerL tok)) = false from
      isPrefixOf_cons_ne (by decide) _ _]
    rfl]
  rw [matchTok_pos "book".toList (pyLowerL tok) hltne hlt]
  simp

/-- The `cancel` command branch of `_regex_intent`. -/
theorem regexIntentL_cancel (tok : List Char) (htokne : tok ≠ [])
    (htok : ∀ c ∈ tok, pyIsSpace c = false) :
    regexIntentL ("cancel".toList ++ ' ' :: tok) =
      mkIntent "cancel" [("booking_id", .str (String.mk (pyLowerL tok)))] := by
  simp only [regexIntentL]
  rw [normQ_cmd "cancel".toList tok (by decide) (by decide) htokne htok]
  have hltne : pyLowerL tok ≠ [] := by unfold pyLowerL; simpa using htokne
  have hlt : ∀ c ∈ pyLowerL tok, pyIsSpace c = false := pyLowerL_nonspace htok
  rw [show ("browse".toList.isPrefixOf ("cancel".toList ++ ' ' :: pyLowerL tok)) = false from
    isPrefixOf_cons_ne (by decide) _ _]
  rw [show ("my bookings".toList.isPrefixOf ("cancel".toList ++ ' ' :: pyLowerL tok)) = false from
    isPrefixOf_cons_ne (by decide) _ _]
  rw [show (matchTok "detail".toList ("cancel".toList ++ ' ' :: pyLowerL tok)) = none from by
    unfold matchTok
    rw [show (("detail".toList ++ [' ']).isPrefixOf ("cancel".toList ++ ' ' :: pyLowerL tok)) = false from
      isPrefixOf_cons_ne (by decide) _ _]
    rfl]
  rw [show (matchTok "book".toList ("cancel".toList ++ ' ' :: pyLowerL tok)) = none from by
    unfold matchTok
    rw [show (("book".toList ++ [' ']).isPrefixOf ("cancel".toList ++ ' ' :: pyLowerL tok)) = false from
      isPrefixOf_cons_ne (by decide) _ _]
    rfl]
  rw [matchTok_pos "cancel".toList (pyLowerL tok) hltne hlt]
  simp

/-- C7 amended: for `detail <token>` (token nonempty, whitespace-free) the
rule-based parser yields intent `detail` with `property_id` equal to the
token lowercased — the parser lowercases the whole text first, so the token
is preserved exactly only up to case; same for `book` and `cancel`. -/
theorem regex_intent_commands (tok : String) (h1 : tok.toList ≠ [])
    (h2 : ∀ c ∈ tok.toList, pyIsSpace c = false) :
    GeminiNLU.regex_intent ("detail " ++ tok) =
      mkIntent "detail" [("property_id", .str (pyLowerStr tok))] ∧
    GeminiNLU.regex_intent ("book " ++ tok) =
      mkIntent "book" [("property_id", .str (pyLowerStr tok))] ∧
    GeminiNLU.regex_intent ("cancel " ++ tok) =
      mkIntent "cancel" [("booking_id", .str (pyLowerStr tok))] :=
  ⟨regexIntentL_detail tok.toList h1 h2,
   regexIntentL_book tok.toList h1 h2,
   regexIntentL_cancel tok.toList h1 h2⟩

/-- C7 witness: an already-lowercase token comes through verbatim. -/
theorem regex_intent_commands_witness :
    GeminiNLU.regex_intent "detail x-1" =
      mkIntent "detail" [("property_id", JVal.str "x-1")] ∧
    GeminiNLU.regex_intent "book x-1" =
      mkIntent "book" [("property_id", JVal.str "x-1")] ∧
    GeminiNLU.regex_intent "cancel x-1" =
      mkIntent "cancel" [("booking_id", JVal.str "x-1")] :=
  regex_intent_commands "x-1" (by decide) (by decide)

/-- C7 counterexample: `detail A1` resolves with `property_id` `a1`, not the
token `A1` exactly as it appears in the text. -/
theorem regex_intent_token_case_counterexample :
    GeminiNLU.regex_intent "detail A1" =
      mkIntent "detail" [("property_id", JVal.str "a1")] ∧
    GeminiNLU.regex_intent "detail A1" ≠
      mkIntent "detail" [("property_id", JVal.str "A1")] := by
  constructor
  · rfl
  · intro h
    rw [show GeminiNLU.regex_intent "detail A1" =
      mkIntent "detail" [("property_id", JVal.str "a1")] from rfl] at h
    simp [mkIntent] at h

/-- C10 witness: negative, non-numeric and missing cursors at the postback
boundary, and a non-numeric filter value at the text boundary, all resolve
to cursor 0. -/
theorem cursor_parsing_total_witness :
    postbackCursor "action=browse&cursor=-5" = 0 ∧
    postbackCursor "action=browse&cursor=abc" = 0 ∧
    postbackCursor "action=browse" = 0 ∧
    textCursor (some (JVal.str "x")) = 0 := by
  refine ⟨?_, ?_, ?_, ?_⟩
  · exact (cursor_parsing_total "action=browse&cursor=-5" "" (JVal.str "x") (-5)
      "-5" []).2.2.2.2.2.2.1 (by decide) (by decide) (by decide)
  · exact (cursor_parsing_total "action=browse&cursor=abc" "" (JVal.str "x") 0
      "abc" []).2.2.2.2.2.1 (by decide) (by decide)
  · exact (cursor_parsing_total "action=browse" "" (JVal.str "x") 0
      "" []).2.2.2.2.1 (by decide)
  · exact (cursor_parsing_total "" "" (JVal.str "x") 0 "" []).2.1 (by decide)
